import Mathlib

/-!
Shallow embedding of the Sciro inline detection engine (sciro.js, v0.3.0).

The engine is an IIFE holding mutable module state; we embed it as pure
functions over an explicit `EngineState`, with wall-clock reads replaced by
an explicit `now : ℕ` (milliseconds) passed per step.  JavaScript numbers
are idealized as rationals (ℚ) for video times / confidence values and as
ℕ/ℤ for millisecond timestamps and counts; `Math.round`, `Math.floor` and
the clamping helpers are embedded exactly over ℚ/ℤ.
-/

namespace Sciro

/-- JS `clamp(n, a, b) = Math.min(b, Math.max(a, n))` over rationals. -/
def clampQ (n a b : ℚ) : ℚ := min b (max a n)

/-- The same clamp over integers (used for the window length, which is an
integer number of milliseconds after `Math.round`). -/
def clampZ (n a b : ℤ) : ℤ := min b (max a n)

/-- JS `Math.round` on a (finite) number: round half toward +∞,
`Math.round x = ⌊x + 1/2⌋`. -/
def jsRound (q : ℚ) : ℤ := ⌊q + 1/2⌋

/-- JS `round2(n) = Math.round(n * 100) / 100` (source line 382). The
`Number(n) || 0` coercion is identity on the finite numbers we model. -/
def round2 (q : ℚ) : ℚ := (jsRound (q * 100) : ℚ) / 100

/-- JS `segmentFor(timeSeconds, segmentSizeSeconds)` (source line 363):
`Math.floor(t / Math.max(5, size))`.  `currentTime` of a media element is
non-negative, so the result is a non-negative integer; we return its `toNat`
(equal to the JS value on every reachable input). -/
def segmentFor (timeSeconds segmentSizeSeconds : ℚ) : ℕ :=
  (⌊timeSeconds / max 5 segmentSizeSeconds⌋).toNat

/-- Confidence weights (`rules.weights`). -/
structure Weights where
  rewinds : ℚ
  sameSegment : ℚ
  pauseNearRewind : ℚ
deriving DecidableEq, Repr

/-- Detection rules (`config.rules` after merging with `DEFAULTS`). -/
structure Rules where
  /-- JS `null` (`none`) means the adaptive window is used. -/
  windowMs : Option ℤ
  minRewindSeconds : ℚ
  seekDebounceMs : ℕ
  cooldownMs : ℕ
  minRewinds : ℕ
  segmentSizeSeconds : ℚ
  pauseNearRewindSeconds : ℚ
  minPauseSeconds : ℚ
  emitOnlyOnStateChange : Bool
  emitStateRefreshMs : ℕ
  weights : Weights
deriving DecidableEq, Repr

/-- The `DEFAULTS` object of the source (lines 18–45). -/
def DEFAULTS : Rules :=
  { windowMs := none
    minRewindSeconds := 2.5
    seekDebounceMs := 500
    cooldownMs := 8000
    minRewinds := 2
    segmentSizeSeconds := 20
    pauseNearRewindSeconds := 6
    minPauseSeconds := 1.0
    emitOnlyOnStateChange := true
    emitStateRefreshMs := 30000
    weights := { rewinds := 0.45, sameSegment := 0.35, pauseNearRewind := 0.20 } }

/-- The value of `videoElement.duration` as read by `getWindowMs`:
it may be `NaN` (metadata not loaded), `+∞` (live stream), a finite number,
or the whole element may be absent (`video?.duration` is `undefined`). -/
inductive JsDur where
  | undef : JsDur
  | nan : JsDur
  | inf : JsDur
  | val (q : ℚ) : JsDur
deriving DecidableEq, Repr

/-- JS `getWindowMs()` (source lines 114–125).
`Number(video?.duration || 0)` maps `undefined` and `NaN` to `0`; then
`!duration || !isFinite(duration)` sends `0` and `Infinity` to the fixed
fallback `60000`; otherwise the adaptive window
`clamp(Math.round(duration * 0.08 * 1000), 30000, 120000)`. -/
def getWindowMs (rules : Rules) (duration : JsDur) : ℤ :=
  match rules.windowMs with
  | some w => w
  | none =>
    match duration with
    | .undef => 60000
    | .nan => 60000
    | .inf => 60000
    | .val q =>
      if q = 0 then 60000
      else clampZ (jsRound (q * 0.08 * 1000)) 30000 120000

/-- JS `computeConfidence({rewinds, maxSegmentRewinds, pauseNear, rules})`
(source lines 347–361). -/
def computeConfidence (rewinds maxSegmentRewinds : ℕ) (pauseNear : Bool)
    (rules : Rules) : ℚ :=
  let rewindScore := clampQ (((rewinds : ℚ) - rules.minRewinds) / 4) 0 1
  let segmentScore := clampQ (((maxSegmentRewinds : ℚ) - 1) / 3) 0 1
  let pauseScore : ℚ := if pauseNear then 1 else 0
  let w := rules.weights
  let blended :=
    rewindScore * w.rewinds +
    segmentScore * w.sameSegment +
    pauseScore * w.pauseNearRewind
  0.55 + blended * 0.4

/-- Classified event types (JS strings `"rewind"`, `"pause"`, `"pause_duration"`). -/
inductive EventType where
  | rewind : EventType
  | pause : EventType
  | pauseDuration : EventType
deriving DecidableEq, Repr

/-- The `meta` object attached to a classified event.  Each event type is
created with exactly one shape of metadata (source lines 77–82, 90, 97). -/
inductive EvMeta where
  | rewindM (fromTime toTime delta : ℚ) (segment : ℕ) : EvMeta
  | pauseM (t : ℚ) : EvMeta
  | pauseDurM (seconds t : ℚ) : EvMeta
deriving DecidableEq, Repr

/-- A classified event `{ type, meta, timestamp }` (source line 104).
Timestamps are `Date.now()` milliseconds. -/
structure ClassifiedEvent where
  type : EventType
  meta : EvMeta
  timestamp : ℕ
deriving DecidableEq, Repr

/-- `e.meta.segment` for the rewind events the engine creates.  Non-rewind
metadata never reaches this projection (the callers filter on
`e.type === "rewind"` first); `0` is a dummy for totality. -/
def ClassifiedEvent.segment (e : ClassifiedEvent) : ℕ :=
  match e.meta with
  | .rewindM _ _ _ s => s
  | _ => 0

/-- JS `cleanOldEvents()` (source lines 109–112):
`events.filter(e => e.timestamp > Date.now() - getWindowMs())`. -/
def cleanOldEvents (rules : Rules) (dur : JsDur) (now : ℕ)
    (events : List ClassifiedEvent) : List ClassifiedEvent :=
  let cutoff : ℤ := (now : ℤ) - getWindowMs rules dur
  events.filter (fun e => cutoff < (e.timestamp : ℤ))

/-- JS `didPauseNear(rewindTimestamp, withinSeconds)` (source lines 175–183).
`!rewindTimestamp` short-circuits `undefined` (no rewind) — and also a `0`
timestamp, since `0` is falsy in JS; we keep that quirk. -/
def didPauseNear (events : List ClassifiedEvent) (rewindTimestamp : Option ℕ)
    (withinSeconds : ℚ) : Bool :=
  match rewindTimestamp with
  | none => false
  | some ts =>
    if ts = 0 then false
    else
      let withinMs := withinSeconds * 1000
      events.any (fun e =>
        (e.type = EventType.pause ∨ e.type = EventType.pauseDuration) ∧
        ts ≤ e.timestamp ∧ (e.timestamp : ℚ) ≤ (ts : ℚ) + withinMs)

/-- The learner states `"ok" | "struggling" | "confused"`. -/
inductive LearnerState where
  | ok : LearnerState
  | struggling : LearnerState
  | confused : LearnerState
deriving DecidableEq, Repr

/-- The key order of a JS object whose keys are the decimal strings of
non-negative integers: `[[OwnPropertyKeys]]` lists array-index keys in
ascending numeric order (NOT insertion order).  `countBy` (source lines
369–376) builds its histogram in such an object, keyed by
`String(e.meta.segment)`, so `Object.entries(segmentCounts)` enumerates
`(segment, count)` pairs with segments strictly ascending. -/
def insertAsc (k : ℕ) : List ℕ → List ℕ
  | [] => [k]
  | a :: as => if k < a then k :: a :: as else a :: insertAsc k as

/-- Ascending sort of the distinct keys (see `insertAsc`). -/
def sortAsc (l : List ℕ) : List ℕ := l.foldr insertAsc []

/-- Number of occurrences of key `k` in the multiset of segment keys. -/
def countKey (k : ℕ) (ks : List ℕ) : ℕ := (ks.filter (fun a => a = k)).length

/-- `Object.entries(countBy(rewindEvents, e => String(e.meta.segment)))`:
the histogram as an entries list, keys strictly ascending (JS integer-key
order), each paired with its count. -/
def jsEntries (ks : List ℕ) : List (ℕ × ℕ) :=
  (sortAsc ks.dedup).map (fun k => (k, countKey k ks))

/-- One step of the stable sort `entries.sort((a, b) => b[1] - a[1])`
(descending by count; JS `Array.prototype.sort` is stable, so entries with
equal counts keep their relative — here ascending-key — order). -/
def insertByCountDesc (x : ℕ × ℕ) : List (ℕ × ℕ) → List (ℕ × ℕ)
  | [] => [x]
  | y :: ys => if y.2 ≤ x.2 then x :: y :: ys else y :: insertByCountDesc x ys

/-- Stable descending-by-count sort of the histogram entries. -/
def sortByCountDesc (l : List (ℕ × ℕ)) : List (ℕ × ℕ) := l.foldr insertByCountDesc []

/-- The `extra` object passed to `buildInsightPayload` in the
struggling/confused branch (source lines 165–169): the three derived
signal fields.  `dominant_segment` is `null` (`none`) when the histogram is
empty (`Object.entries(...)[0]?.[0] ?? null`). -/
structure ExtraSignals where
  dominant_segment : Option ℕ
  max_segment_rewinds : ℕ
  pause_near_rewind : Bool
deriving DecidableEq, Repr

/-- The outcome of one run of the evaluator body (source lines 131–170):
everything `evaluateState` passes to `buildInsightPayload`. -/
structure EvalResult where
  state : LearnerState
  confidence : ℚ
  rewinds : ℕ
  rewindEvents : List ClassifiedEvent
  /-- Value `none` mirrors the `ok` branch, where no `extra` object is passed
  and the three derived-signal keys are absent from the payload. -/
  extra : Option ExtraSignals
deriving DecidableEq, Repr

/-- Number of `rewind` events in a window. -/
def rewindCount (events : List ClassifiedEvent) : ℕ :=
  (events.filter (fun e => e.type = EventType.rewind)).length

/-- The maximal histogram bucket, `Math.max(...Object.values(segmentCounts))`
(source line 143).  On the empty histogram JS yields `-Infinity` while we
yield `0`; the two agree on every value the engine consumes downstream
(`clampQ ((0 - 1) / 3) 0 1 = 0` either way), and every claim below concerns
non-empty histograms. -/
def maxSegmentRewinds (entries : List (ℕ × ℕ)) : ℕ :=
  (entries.map (fun p => p.2)).foldr max 0

/-- The body of `evaluateState` after the cooldown gate (source lines
131–170), as a pure function of the rules and the current window. -/
def evalCore (rules : Rules) (events : List ClassifiedEvent) : EvalResult :=
  let rewindEvents := events.filter (fun e => e.type = EventType.rewind)
  let rewinds := rewindEvents.length
  if rewinds < rules.minRewinds then
    { state := .ok, confidence := 0.25, rewinds := rewinds
      rewindEvents := rewindEvents, extra := none }
  else
    let segmentCounts := jsEntries (rewindEvents.map ClassifiedEvent.segment)
    let maxSeg := maxSegmentRewinds segmentCounts
    let dominantSegment := ((sortByCountDesc segmentCounts).head?).map (fun p => p.1)
    let lastRewind := rewindEvents.getLast?
    let pauseNear := didPauseNear events (lastRewind.map (fun e => e.timestamp))
      rules.pauseNearRewindSeconds
    let confidence := computeConfidence rewinds maxSeg pauseNear rules
    let state := if confidence ≥ 0.75 then LearnerState.confused else LearnerState.struggling
    { state := state, confidence := confidence, rewinds := rewinds
      rewindEvents := rewindEvents
      extra := some { dominant_segment := dominantSegment
                      max_segment_rewinds := maxSeg
                      pause_near_rewind := pauseNear } }

/-- One element of `rewinds_in_window` (source lines 205–211). -/
structure RewindEntry where
  fromTime : ℚ
  toTime : ℚ
  delta : ℚ
  segment : ℕ
  at_ : ℕ
deriving DecidableEq, Repr

/-- `rewindEvents.map(e => ({fromTime, toTime, delta, segment, at}))`.
The dummy zeros for non-rewind metadata are unreachable: the list mapped
over is always `events.filter(type === "rewind")`. -/
def toRewindEntry (e : ClassifiedEvent) : RewindEntry :=
  match e.meta with
  | .rewindM f t d s => { fromTime := f, toTime := t, delta := d, segment := s, at_ := e.timestamp }
  | _ => { fromTime := 0, toTime := 0, delta := 0, segment := 0, at_ := e.timestamp }

/-- Integrator-supplied passthrough metadata (`config.userId` etc.). -/
structure MetaCfg where
  userId : Option String
  topic : Option String
  lessonId : Option String
  sessionId : Option String
deriving DecidableEq, Repr

/-- The insight payload (source lines 202–246).  `extra : Option ExtraSignals`
models the `...extra` spread: `none` means the three derived-signal keys are
absent (the `ok` branch passes no `extra`).  `created_at` is the wall-clock
instant (`new Date().toISOString()`); the best-effort `page` fields and the
constant `sdk` object carry no claim-relevant structure and are omitted. -/
structure InsightPayload where
  event_type : String
  insight_type : String
  state : LearnerState
  confidence : ℚ
  rewinds : ℕ
  video_current_time : ℚ
  video_duration : ℚ
  last_rewind : Option RewindEntry
  rewinds_in_window : List RewindEntry
  extra : Option ExtraSignals
  userId : Option String
  topic : Option String
  lessonId : Option String
  sessionId : Option String
  window_ms : ℤ
  created_at : ℕ
deriving DecidableEq, Repr

/-- The finite rational carried into `round2(video?.duration ?? 0)`;
a non-finite duration is idealized as `0` (no claim depends on it). -/
def JsDur.toQ : JsDur → ℚ
  | .undef => 0
  | .nan => 0
  | .inf => 0
  | .val q => q

/-- JS `buildInsightPayload({state, confidence, rewinds, rewindEvents, extra})`
(source lines 202–246). -/
def buildInsightPayload (rules : Rules) (dur : JsDur) (currentTime : ℚ)
    (meta : MetaCfg) (now : ℕ) (r : EvalResult) : InsightPayload :=
  let rewindsInWindow := r.rewindEvents.map toRewindEntry
  { event_type := "sciro.insight"
    insight_type := "learner_state"
    state := r.state
    confidence := round2 r.confidence
    rewinds := r.rewinds
    video_current_time := round2 currentTime
    video_duration := round2 dur.toQ
    last_rewind := rewindsInWindow.getLast?
    rewinds_in_window := rewindsInWindow
    extra := r.extra
    userId := meta.userId
    topic := meta.topic
    lessonId := meta.lessonId
    sessionId := meta.sessionId
    window_ms := getWindowMs rules dur
    created_at := now }

/-- The emission bookkeeping (`lastEmittedState`, `lastEmittedAt`);
`lastEmittedState` starts as JS `null` (`none`). -/
structure EmitBook where
  lastEmittedState : Option LearnerState
  lastEmittedAt : ℕ
deriving DecidableEq, Repr

/-- The decision part of JS `maybeEmit(insight)` (source lines 185–200):
returns the updated bookkeeping and whether the insight is handed to the
three deliveries. -/
def maybeEmit (rules : Rules) (b : EmitBook) (state : LearnerState) (now : ℕ) :
    EmitBook × Bool :=
  let stateChanged : Bool := some state ≠ b.lastEmittedState
  let refreshAllowed : Bool := (rules.emitStateRefreshMs : ℤ) ≤ (now : ℤ) - b.lastEmittedAt
  if rules.emitOnlyOnStateChange && !stateChanged && !refreshAllowed then (b, false)
  else ({ lastEmittedState := some state, lastEmittedAt := now }, true)

/-- The engine's mutable module state relevant to the window/evaluation
pipeline (source lines 2–11). -/
structure EngineState where
  events : List ClassifiedEvent
  lastStableTime : ℚ
  seekFrom : Option ℚ
  lastSeekRecordedAt : ℕ
  lastInsightAt : ℕ
  lastEmittedState : Option LearnerState
  lastEmittedAt : ℕ
deriving DecidableEq, Repr

/-- The initial module state (all timestamps `0`, empty window,
`lastEmittedState = null`). -/
def initialState : EngineState :=
  { events := [], lastStableTime := 0, seekFrom := none, lastSeekRecordedAt := 0
    lastInsightAt := 0, lastEmittedState := none, lastEmittedAt := 0 }

/-- JS `evaluateState()` (source lines 127–173).  Returns the updated state
and, when the evaluation ran (cooldown elapsed), the payload it built
together with the emission decision (`maybeEmit` builds the payload before
deciding, so the payload exists whether or not it is emitted). -/
def evaluateState (rules : Rules) (dur : JsDur) (currentTime : ℚ)
    (meta : MetaCfg) (now : ℕ) (s : EngineState) :
    EngineState × Option (InsightPayload × Bool) :=
  if (now : ℤ) - s.lastInsightAt < rules.cooldownMs then (s, none)
  else
    let r := evalCore rules s.events
    let p := buildInsightPayload rules dur currentTime meta now r
    let be :=
      maybeEmit rules { lastEmittedState := s.lastEmittedState, lastEmittedAt := s.lastEmittedAt }
        p.state now
    ({ s with lastInsightAt := now
              lastEmittedState := be.1.lastEmittedState
              lastEmittedAt := be.1.lastEmittedAt },
     some (p, be.2))

/-- JS `trackEvent(type, meta)` (source lines 103–107): push the new event,
lazily evict (`cleanOldEvents`), then evaluate — all at the same instant
`now` (the three `Date.now()` reads of one synchronous step). -/
def trackEvent (rules : Rules) (dur : JsDur) (currentTime : ℚ) (meta : MetaCfg)
    (t : EventType) (m : EvMeta) (now : ℕ) (s : EngineState) :
    EngineState × Option (InsightPayload × Bool) :=
  let ev : ClassifiedEvent := { type := t, meta := m, timestamp := now }
  let s1 := { s with events := s.events ++ [ev] }
  let s2 := { s1 with events := cleanOldEvents rules dur now s1.events }
  evaluateState rules dur currentTime meta now s2

/-- The capture-side state touched by the `seeked` listener. -/
structure SeekState where
  lastStableTime : ℚ
  seekFrom : Option ℚ
  lastSeekRecordedAt : ℕ
deriving DecidableEq, Repr

/-- The classification step of the `seeked` listener (source lines 65–84):
reads the current time, resolves `fromTime = seekFrom ?? lastStableTime`,
clears `seekFrom`, debounces against `lastSeekRecordedAt`, and records a
`rewind` event when `delta ≥ minRewindSeconds`.  Returns the updated seek
state and the classified event handed to `trackEvent`, if any. -/
def seekedClassify (rules : Rules) (st : SeekState) (now : ℕ) (currentTime : ℚ) :
    SeekState × Option ClassifiedEvent :=
  let toTime := currentTime
  let fromTime := st.seekFrom.getD st.lastStableTime
  let st1 : SeekState := { st with seekFrom := none }
  let delta := fromTime - toTime
  if (now : ℤ) - st1.lastSeekRecordedAt < rules.seekDebounceMs then (st1, none)
  else if rules.minRewindSeconds ≤ delta then
    ({ st1 with lastSeekRecordedAt := now },
     some { type := EventType.rewind
            meta := EvMeta.rewindM (round2 fromTime) (round2 toTime) (round2 delta)
              (segmentFor toTime rules.segmentSizeSeconds)
            timestamp := now })
  else (st1, none)

/-- The three deliveries of an emitted insight, in the order `maybeEmit`
performs them (source lines 197–199). -/
inductive DeliveryStep where
  | callback : DeliveryStep
  | webhook : DeliveryStep
  | uiRender : DeliveryStep
deriving DecidableEq, Repr

/-- The UI plugin configuration relevant to delivery: a `render` function
that may throw (`Except.error`) or return markup (`some html`, with falsy
output modeled as `none`), and an optional `onAction` click handler that may
throw. -/
structure UiCfg where
  render : InsightPayload → Except Unit (Option String)
  onAction : Option (String → InsightPayload → Except Unit Unit)

/-- The delivery-side configuration: an optional `onInsight` callback (which
may throw), whether a webhook endpoint is configured, and the optional UI
plugin. -/
structure DeliverCfg where
  onInsight : Option (InsightPayload → Except Unit Unit)
  apiEndpointSet : Bool
  ui : Option UiCfg

/-- JS `emitInsight(insight)` (source lines 248–250):
`config.onInsight?.(insight)` — the optional call, with NO try/catch around
it; whatever the callback throws propagates to the caller. -/
def emitInsight (c : DeliverCfg) (i : InsightPayload) : Except Unit Unit :=
  match c.onInsight with
  | none => Except.ok ()
  | some f => f i

/-- JS `maybeRenderUI(insight)` (source lines 276–300): skipped when no UI
plugin is configured; otherwise `ui.render(...)` is invoked with NO
try/catch — a throwing render propagates.  The DOM mounting and timer
rearming on `some html` are outside the claims modeled here. -/
def maybeRenderUI (c : DeliverCfg) (i : InsightPayload) : Except Unit Unit :=
  match c.ui with
  | none => Except.ok ()
  | some ui =>
    match ui.render i with
    | Except.error e => Except.error e
    | Except.ok _ => Except.ok ()

/-- The delivery sequence of `maybeEmit` after a positive emission decision
(source lines 197–199): `emitInsight(insight); sendInsightToApi(insight);
maybeRenderUI(insight)`.  `sendInsightToApi` is an async fire-and-forget
whose network failures are caught inside it (lines 259–269), so it never
throws into this sequence.  Returns the delivery steps that were started
and whether an exception escaped the sequence uncaught. -/
def runDeliveries (c : DeliverCfg) (i : InsightPayload) :
    List DeliveryStep × Bool :=
  match emitInsight c i with
  | Except.error _ => ([DeliveryStep.callback], true)
  | Except.ok _ =>
    match maybeRenderUI c i with
    | Except.error _ =>
      ([DeliveryStep.callback, DeliveryStep.webhook, DeliveryStep.uiRender], true)
    | Except.ok _ =>
      ([DeliveryStep.callback, DeliveryStep.webhook, DeliveryStep.uiRender], false)

/-- The click listener wired by `wireUiClicks` (source lines 325–333):
dismiss the UI (never throws), then call `ui.onAction(action, insight)` with
NO try/catch — a throwing action handler propagates out of the listener. -/
def uiClick (ui : UiCfg) (action : String) (i : InsightPayload) : Except Unit Unit :=
  match ui.onAction with
  | none => Except.ok ()
  | some f => f action i

/-- Repeated evaluations seen by the emission policy: fold `maybeEmit` over a
list of evaluation instants, all yielding the same state `st`, and collect
the instants at which an emission occurred. -/
def emitTrace (rules : Rules) (st : LearnerState) : EmitBook → List ℕ → List ℕ
  | _, [] => []
  | b, now :: rest =>
    let r := maybeEmit rules b st now
    if r.2 then now :: emitTrace rules st r.1 rest else emitTrace rules st r.1 rest

/-- The multiset of segment keys the evaluator histograms: the segments of
the rewind events currently in the window, in window order. -/
def segsOf (events : List ClassifiedEvent) : List ℕ :=
  (events.filter (fun e => e.type = EventType.rewind)).map ClassifiedEvent.segment

/-! ### Concrete inputs used by witnesses and counterexamples -/

/-- Spec Scenario A: two rewinds (deltas 3 s and 4 s) landing in segment 0,
no pause, cooldown long elapsed. -/
def scenarioA : EngineState :=
  { initialState with events :=
      [{ type := EventType.rewind, meta := EvMeta.rewindM 10 7 3 0, timestamp := 1000 },
       { type := EventType.rewind, meta := EvMeta.rewindM 12 8 4 0, timestamp := 2000 }] }

/-- A window with two tied segments (counts 2–2) whose first rewind lies in
segment 5 while the lowest tied segment id is 2. -/
def tiedWindow : List ClassifiedEvent :=
  [{ type := EventType.rewind, meta := EvMeta.rewindM 110 105 5 5, timestamp := 1000 },
   { type := EventType.rewind, meta := EvMeta.rewindM 50 45 5 2, timestamp := 2000 },
   { type := EventType.rewind, meta := EvMeta.rewindM 50 45 5 2, timestamp := 3000 },
   { type := EventType.rewind, meta := EvMeta.rewindM 110 105 5 5, timestamp := 4000 }]

/-- A concrete payload (the one an empty window evaluates to), used to feed
the delivery pipeline in delivery-isolation counterexamples. -/
def examplePayload : InsightPayload :=
  buildInsightPayload DEFAULTS JsDur.undef 0
    { userId := none, topic := none, lessonId := none, sessionId := none }
    0 (evalCore DEFAULTS [])

/-- A configuration whose `onInsight` callback always throws, with a webhook
endpoint and a UI plugin configured (so two deliveries remain after the
callback). -/
def throwingCallbackCfg : DeliverCfg :=
  { onInsight := some (fun _ => Except.error ())
    apiEndpointSet := true
    ui := some { render := fun _ => Except.ok (some "<div></div>"), onAction := none } }

/-! ### Shared helper lemmas -/

/-- When the cooldown has elapsed, `evaluateState` runs the evaluator body:
it returns the payload built from `evalCore` and the `maybeEmit` decision. -/
theorem evaluateState_run (rules : Rules) (dur : JsDur) (ct : ℚ) (meta : MetaCfg)
    (now : ℕ) (s : EngineState)
    (hcool : ¬ ((now : ℤ) - s.lastInsightAt < rules.cooldownMs)) :
    (evaluateState rules dur ct meta now s).2 =
      some (buildInsightPayload rules dur ct meta now (evalCore rules s.events),
        (maybeEmit rules
          { lastEmittedState := s.lastEmittedState, lastEmittedAt := s.lastEmittedAt }
          (buildInsightPayload rules dur ct meta now (evalCore rules s.events)).state
          now).2) := by
  simp only [evaluateState, if_neg hcool]

/-- `evaluateState` never modifies the window buffer. -/
theorem evaluateState_events (rules : Rules) (dur : JsDur) (ct : ℚ) (meta : MetaCfg)
    (now : ℕ) (s : EngineState) :
    (evaluateState rules dur ct meta now s).1.events = s.events := by
  by_cases h : (now : ℤ) - s.lastInsightAt < rules.cooldownMs <;>
    simp [evaluateState, h]

/-- The `ok` branch of the evaluator body. -/
theorem evalCore_of_lt (rules : Rules) (events : List ClassifiedEvent)
    (h : rewindCount events < rules.minRewinds) :
    evalCore rules events =
      { state := LearnerState.ok, confidence := 0.25
        rewinds := rewindCount events
        rewindEvents := events.filter (fun e => e.type = EventType.rewind)
        extra := none } := by
  simp only [evalCore, rewindCount] at h ⊢
  rw [if_pos h]

/-! ### Claim theorems -/

/-- Claim C9: the active window length equals the configured fixed value when
one is provided; otherwise, for a known finite positive duration it is
`clamp(round(duration × 0.08 × 1000), 30000, 120000)` ms; and it is exactly
60000 ms when the duration is unknown (zero/absent) or non-finite. -/
theorem window_length_spec (rules : Rules) (dur : JsDur) :
    (∀ w, rules.windowMs = some w → getWindowMs rules dur = w) ∧
    (rules.windowMs = none → ∀ q, dur = JsDur.val q → 0 < q →
      getWindowMs rules dur = clampZ (jsRound (q * 0.08 * 1000)) 30000 120000) ∧
    (rules.windowMs = none →
      (dur = JsDur.undef ∨ dur = JsDur.nan ∨ dur = JsDur.inf ∨ dur = JsDur.val 0) →
      getWindowMs rules dur = 60000) := by
  refine ⟨?_, ?_, ?_⟩
  · intro w hw
    simp [getWindowMs, hw]
  · intro hn q hq hpos
    subst hq
    simp [getWindowMs, hn, ne_of_gt hpos]
  · intro hn hd
    rcases hd with h | h | h | h <;> subst h <;> simp [getWindowMs, hn]

theorem window_length_spec_witness :
    ((DEFAULTS.windowMs = none) ∧ (0:ℚ) < 750 ∧
      getWindowMs DEFAULTS (JsDur.val 750)
        = clampZ (jsRound ((750:ℚ) * 0.08 * 1000)) 30000 120000) ∧
    getWindowMs { DEFAULTS with windowMs := some 5000 } JsDur.inf = 5000 ∧
    getWindowMs DEFAULTS JsDur.nan = 60000 := by
  refine ⟨⟨rfl, by norm_num, ?_⟩, ?_, ?_⟩
  · exact (window_length_spec DEFAULTS (JsDur.val 750)).2.1 rfl 750 rfl (by norm_num)
  · exact (window_length_spec { DEFAULTS with windowMs := some 5000 } JsDur.inf).1 5000 rfl
  · exact (window_length_spec DEFAULTS JsDur.nan).2.2 rfl (Or.inr (Or.inl rfl))

/-- Claim C3: for every evaluation that runs (cooldown elapsed) with fewer
than `minRewinds` rewind events in the window, the resulting state is `ok`
and the confidence is exactly the fixed baseline 0.25, regardless of pause
events or segment distribution (the payload is built from the `ok` branch,
which never inspects them). -/
theorem evaluate_ok_baseline (rules : Rules) (dur : JsDur) (ct : ℚ) (meta : MetaCfg)
    (now : ℕ) (s : EngineState)
    (hcool : ¬ ((now : ℤ) - s.lastInsightAt < rules.cooldownMs))
    (hlt : rewindCount s.events < rules.minRewinds) :
    ∃ pe, (evaluateState rules dur ct meta now s).2 = some pe ∧
      pe.1.state = LearnerState.ok ∧ pe.1.confidence = 0.25 := by
  refine ⟨_, evaluateState_run rules dur ct meta now s hcool, ?_, ?_⟩ <;>
    rw [evalCore_of_lt rules s.events hlt] <;>
    simp [buildInsightPayload, round2, jsRound]
  norm_num

theorem evaluate_ok_baseline_witness :
    (¬ ((10000 : ℤ) - (initialState.lastInsightAt : ℤ) < DEFAULTS.cooldownMs)) ∧
    rewindCount initialState.events < DEFAULTS.minRewinds ∧
    ∃ pe, (evaluateState DEFAULTS JsDur.undef 0
        { userId := none, topic := none, lessonId := none, sessionId := none }
        10000 initialState).2 = some pe ∧
      pe.1.state = LearnerState.ok ∧ pe.1.confidence = 0.25 := by
  refine ⟨by decide, by decide, ?_⟩
  exact evaluate_ok_baseline DEFAULTS JsDur.undef 0
    { userId := none, topic := none, lessonId := none, sessionId := none }
    10000 initialState (by decide) (by decide)

/-- Claim C2: for every evaluation that runs (cooldown elapsed) with at least
`minRewinds` rewind events in the window, the computed confidence equals
`0.55 + (rewindScore·0.45 + segmentScore·0.35 + pauseScore·0.20) × 0.4`
under the default weights, where `rewindScore = clamp((rewindCount −
minRewinds)/4, 0, 1)`, `segmentScore = clamp((maxSegmentRewinds − 1)/3, 0, 1)`
and `pauseScore = 1` iff a pause landed near the last rewind; the resulting
state is `confused` iff the confidence is ≥ 0.75 and `struggling` otherwise
(the emitted payload carries this confidence rounded to 2 decimals). -/
theorem evaluate_confidence_formula (rules : Rules) (dur : JsDur) (ct : ℚ)
    (meta : MetaCfg) (now : ℕ) (s : EngineState)
    (hcool : ¬ ((now : ℤ) - s.lastInsightAt < rules.cooldownMs))
    (hmin : rules.minRewinds ≤ rewindCount s.events)
    (hw : rules.weights = DEFAULTS.weights) :
    ∃ pe, (evaluateState rules dur ct meta now s).2 = some pe ∧
      pe.1.confidence = round2 ((evalCore rules s.events).confidence) ∧
      (evalCore rules s.events).confidence =
        0.55 +
          (clampQ (((rewindCount s.events : ℚ) - rules.minRewinds) / 4) 0 1 * 0.45 +
           clampQ (((maxSegmentRewinds (jsEntries
               ((s.events.filter (fun e => e.type = EventType.rewind)).map
                 ClassifiedEvent.segment)) : ℚ) - 1) / 3) 0 1 * 0.35 +
           (if didPauseNear s.events
               (((s.events.filter (fun e => e.type = EventType.rewind)).getLast?).map
                 (fun e => e.timestamp))
               rules.pauseNearRewindSeconds then (1 : ℚ) else 0) * 0.20) * 0.4 ∧
      pe.1.state = (if (evalCore rules s.events).confidence ≥ 0.75
        then LearnerState.confused else LearnerState.struggling) := by
  have hnl : ¬ ((s.events.filter (fun e => e.type = EventType.rewind)).length
      < rules.minRewinds) := by
    exact not_lt.mpr hmin
  refine ⟨_, evaluateState_run rules dur ct meta now s hcool, ?_, ?_, ?_⟩
  · rfl
  · simp only [evalCore, if_neg hnl, computeConfidence, hw, rewindCount, DEFAULTS]
  · show (evalCore rules s.events).state = _
    conv_lhs => simp only [evalCore, if_neg hnl]
    conv_rhs => rw [show (evalCore rules s.events).confidence
      = computeConfidence (rewindCount s.events)
          (maxSegmentRewinds (jsEntries
            ((s.events.filter (fun e => e.type = EventType.rewind)).map
              ClassifiedEvent.segment)))
          (didPauseNear s.events
            (((s.events.filter (fun e => e.type = EventType.rewind)).getLast?).map
              (fun e => e.timestamp))
            rules.pauseNearRewindSeconds) rules from by
        simp only [evalCore, if_neg hnl, rewindCount]]
    rfl

theorem evaluate_confidence_formula_witness :
    (¬ ((10000 : ℤ) - (scenarioA.lastInsightAt : ℤ) < DEFAULTS.cooldownMs)) ∧
    DEFAULTS.minRewinds ≤ rewindCount scenarioA.events ∧
    ∃ pe, (evaluateState DEFAULTS JsDur.undef 0
        { userId := none, topic := none, lessonId := none, sessionId := none }
        10000 scenarioA).2 = some pe ∧
      pe.1.confidence = round2 ((evalCore DEFAULTS scenarioA.events).confidence) ∧
      (evalCore DEFAULTS scenarioA.events).confidence =
        0.55 +
          (clampQ (((rewindCount scenarioA.events : ℚ) - DEFAULTS.minRewinds) / 4) 0 1 * 0.45 +
           clampQ (((maxSegmentRewinds (jsEntries
               ((scenarioA.events.filter (fun e => e.type = EventType.rewind)).map
                 ClassifiedEvent.segment)) : ℚ) - 1) / 3) 0 1 * 0.35 +
           (if didPauseNear scenarioA.events
               (((scenarioA.events.filter (fun e => e.type = EventType.rewind)).getLast?).map
                 (fun e => e.timestamp))
               DEFAULTS.pauseNearRewindSeconds then (1 : ℚ) else 0) * 0.20) * 0.4 ∧
      pe.1.state = (if (evalCore DEFAULTS scenarioA.events).confidence ≥ 0.75
        then LearnerState.confused else LearnerState.struggling) :=
  ⟨by decide, by decide,
    evaluate_confidence_formula DEFAULTS JsDur.undef 0
      { userId := none, topic := none, lessonId := none, sessionId := none }
      10000 scenarioA (by decide) (by decide) rfl⟩

/-- The clamp is monotone in its input. -/
theorem clampQ_mono {a b n1 n2 : ℚ} (h : n1 ≤ n2) : clampQ n1 a b ≤ clampQ n2 a b :=
  min_le_min le_rfl (max_le_max le_rfl h)

/-- The clamp stays below its upper bound. -/
theorem clampQ_le_upper (n a b : ℚ) : clampQ n a b ≤ b := min_le_left b _

/-- The clamp stays above its lower bound (when the bounds are ordered). -/
theorem clampQ_lower_le {a b : ℚ} (n : ℚ) (hab : a ≤ b) : a ≤ clampQ n a b :=
  le_min hab (le_max_left a n)

/-- Claim C4: under the default weights, for evaluations with
`rewindCount ≥ minRewinds` the computed confidence is non-decreasing in the
rewind count, in the maximal same-segment count, and in the pause-near flag,
holding the other two fixed, and always lies in `[0.55, 0.95]`. -/
theorem confidence_monotone_bounds (rules : Rules)
    (hw : rules.weights = DEFAULTS.weights) :
    (∀ r1 r2 m p, rules.minRewinds ≤ r1 → r1 ≤ r2 →
        computeConfidence r1 m p rules ≤ computeConfidence r2 m p rules) ∧
    (∀ r m1 m2 p, rules.minRewinds ≤ r → m1 ≤ m2 →
        computeConfidence r m1 p rules ≤ computeConfidence r m2 p rules) ∧
    (∀ r m, rules.minRewinds ≤ r →
        computeConfidence r m false rules ≤ computeConfidence r m true rules) ∧
    (∀ r m p, rules.minRewinds ≤ r →
        0.55 ≤ computeConfidence r m p rules ∧ computeConfidence r m p rules ≤ 0.95) := by
  simp only [computeConfidence, hw, DEFAULTS]
  refine ⟨?_, ?_, ?_, ?_⟩
  · intro r1 r2 m p _ h12
    have hc : clampQ (((r1 : ℚ) - rules.minRewinds) / 4) 0 1
        ≤ clampQ (((r2 : ℚ) - rules.minRewinds) / 4) 0 1 := by
      refine clampQ_mono ?_
      have : (r1 : ℚ) ≤ r2 := by exact_mod_cast h12
      linarith
    rcases p <;> simp only [if_true, if_false, Bool.false_eq_true] <;> nlinarith
  · intro r m1 m2 p _ h12
    have hc : clampQ (((m1 : ℚ) - 1) / 3) 0 1 ≤ clampQ (((m2 : ℚ) - 1) / 3) 0 1 := by
      refine clampQ_mono ?_
      have : (m1 : ℚ) ≤ m2 := by exact_mod_cast h12
      linarith
    rcases p <;> simp only [if_true, if_false, Bool.false_eq_true] <;> nlinarith
  · intro r m _
    simp only [if_true, Bool.false_eq_true, if_false]
    have h1 : 0 ≤ clampQ (((r : ℚ) - rules.minRewinds) / 4) 0 1 :=
      clampQ_lower_le _ (by norm_num)
    have h2 : 0 ≤ clampQ (((m : ℚ) - 1) / 3) 0 1 :=
      clampQ_lower_le _ (by norm_num)
    nlinarith
  · intro r m p _
    have h1 : 0 ≤ clampQ (((r : ℚ) - rules.minRewinds) / 4) 0 1 :=
      clampQ_lower_le _ (by norm_num)
    have h1u : clampQ (((r : ℚ) - rules.minRewinds) / 4) 0 1 ≤ 1 := clampQ_le_upper _ 0 1
    have h2 : 0 ≤ clampQ (((m : ℚ) - 1) / 3) 0 1 :=
      clampQ_lower_le _ (by norm_num)
    have h2u : clampQ (((m : ℚ) - 1) / 3) 0 1 ≤ 1 := clampQ_le_upper _ 0 1
    rcases p <;> simp only [if_true, if_false, Bool.false_eq_true] <;>
      constructor <;> nlinarith

theorem confidence_monotone_bounds_witness :
    (DEFAULTS.minRewinds ≤ 2 ∧ (2 : ℕ) ≤ 6 ∧
      computeConfidence 2 2 false DEFAULTS ≤ computeConfidence 6 2 false DEFAULTS) ∧
    (computeConfidence 3 2 false DEFAULTS ≤ computeConfidence 3 4 false DEFAULTS) ∧
    (computeConfidence 3 2 false DEFAULTS ≤ computeConfidence 3 2 true DEFAULTS) ∧
    (0.55 ≤ computeConfidence 5 4 true DEFAULTS ∧
      computeConfidence 5 4 true DEFAULTS ≤ 0.95) :=
  ⟨⟨by decide, by decide,
      (confidence_monotone_bounds DEFAULTS rfl).1 2 6 2 false (by decide) (by decide)⟩,
   (confidence_monotone_bounds DEFAULTS rfl).2.1 3 2 4 false (by decide) (by decide),
   (confidence_monotone_bounds DEFAULTS rfl).2.2.1 3 2 (by decide),
   (confidence_monotone_bounds DEFAULTS rfl).2.2.2 5 4 true (by decide)⟩

/-- Claim C5: at the moment of every evaluation, every event in the window
buffer has `timestamp ≥ now − windowMs(now)` — the buffer the evaluation
sees is exactly the one produced by the lazy eviction performed on this
insertion, and no event with `timestamp < now − windowMs(now)` survives it. -/
theorem eviction_invariant (rules : Rules) (dur : JsDur) (ct : ℚ) (meta : MetaCfg)
    (t : EventType) (m : EvMeta) (now : ℕ) (s : EngineState) :
    ((trackEvent rules dur ct meta t m now s).1.events =
      cleanOldEvents rules dur now
        (s.events ++ [{ type := t, meta := m, timestamp := now }])) ∧
    ∀ e, e ∈ (trackEvent rules dur ct meta t m now s).1.events →
      (now : ℤ) - getWindowMs rules dur ≤ (e.timestamp : ℤ) ∧
      ¬ ((e.timestamp : ℤ) < (now : ℤ) - getWindowMs rules dur) := by
  have hev : (trackEvent rules dur ct meta t m now s).1.events =
      cleanOldEvents rules dur now
        (s.events ++ [{ type := t, meta := m, timestamp := now }]) := by
    simp only [trackEvent]
    rw [evaluateState_events]
  refine ⟨hev, ?_⟩
  intro e he
  rw [hev] at he
  simp only [cleanOldEvents, List.mem_filter, decide_eq_true_eq] at he
  exact ⟨le_of_lt he.2, not_lt.mpr (le_of_lt he.2)⟩

theorem eviction_invariant_witness :
    ({ type := EventType.pause, meta := EvMeta.pauseM 0, timestamp := 10000 }
        ∈ (trackEvent DEFAULTS JsDur.undef 0
            { userId := none, topic := none, lessonId := none, sessionId := none }
            EventType.pause (EvMeta.pauseM 0) 10000 initialState).1.events) ∧
    ((10000 : ℤ) - getWindowMs DEFAULTS JsDur.undef
        ≤ (({ type := EventType.pause, meta := EvMeta.pauseM 0, timestamp := 10000 }
            : ClassifiedEvent).timestamp : ℤ)) := by
  refine ⟨by decide, ?_⟩
  exact ((eviction_invariant DEFAULTS JsDur.undef 0
    { userId := none, topic := none, lessonId := none, sessionId := none }
    EventType.pause (EvMeta.pauseM 0) 10000 initialState).2
    { type := EventType.pause, meta := EvMeta.pauseM 0, timestamp := 10000 }
    (by decide)).1

/-- Claim C6: when a seek-end signal records a rewind at `now1`, a second
seek-end arriving at `now2` with `now2 − now1 < seekDebounceMs` is discarded
by the debounce: the pair produces exactly one `rewind` ClassifiedEvent (the
first call yields it, the second yields none). -/
theorem seek_debounce (rules : Rules) (st : SeekState) (now1 now2 : ℕ) (ct1 ct2 : ℚ)
    (h1 : ((seekedClassify rules st now1 ct1).2).isSome = true)
    (h2 : (now2 : ℤ) - (now1 : ℤ) < rules.seekDebounceMs) :
    (∃ ev, (seekedClassify rules st now1 ct1).2 = some ev ∧
       ev.type = EventType.rewind ∧ ev.timestamp = now1) ∧
    (seekedClassify rules (seekedClassify rules st now1 ct1).1 now2 ct2).2 = none := by
  by_cases hd : (now1 : ℤ) - st.lastSeekRecordedAt < rules.seekDebounceMs
  · exfalso
    simp [seekedClassify, hd] at h1
  · by_cases hr : rules.minRewindSeconds ≤ st.seekFrom.getD st.lastStableTime - ct1
    · constructor
      · refine ⟨{ type := EventType.rewind
                  meta := EvMeta.rewindM (round2 (st.seekFrom.getD st.lastStableTime))
                    (round2 ct1) (round2 (st.seekFrom.getD st.lastStableTime - ct1))
                    (segmentFor ct1 rules.segmentSizeSeconds)
                  timestamp := now1 }, ?_, rfl, rfl⟩
        simp [seekedClassify, hd, hr]
      · simp [seekedClassify, hd, hr, h2]
    · exfalso
      simp [seekedClassify, hd, hr] at h1

theorem seek_debounce_witness :
    (((seekedClassify DEFAULTS
        { lastStableTime := 30, seekFrom := none, lastSeekRecordedAt := 0 }
        1000 20).2).isSome = true) ∧
    ((1300 : ℤ) - (1000 : ℤ) < DEFAULTS.seekDebounceMs) ∧
    (seekedClassify DEFAULTS
      (seekedClassify DEFAULTS
        { lastStableTime := 30, seekFrom := none, lastSeekRecordedAt := 0 }
        1000 20).1 1300 15).2 = none := by
  refine ⟨by norm_num [seekedClassify, DEFAULTS], by decide, ?_⟩
  exact (seek_debounce DEFAULTS
    { lastStableTime := 30, seekFrom := none, lastSeekRecordedAt := 0 }
    1000 1300 20 15 (by norm_num [seekedClassify, DEFAULTS]) (by decide)).2

/-- A `maybeEmit` step either skips (returning the bookkeeping unchanged) or
emits (stamping the state and instant). -/
theorem maybeEmit_cases (rules : Rules) (b : EmitBook) (st : LearnerState) (now : ℕ) :
    maybeEmit rules b st now = (b, false) ∨
    maybeEmit rules b st now
      = ({ lastEmittedState := some st, lastEmittedAt := now }, true) := by
  simp only [maybeEmit]
  split
  · exact Or.inl rfl
  · exact Or.inr rfl

/-- A `maybeEmit` step that emits while the state is unchanged requires the
refresh interval to have elapsed, and stamps the bookkeeping with `now`. -/
theorem maybeEmit_emit_unchanged (rules : Rules) (b : EmitBook) (st : LearnerState)
    (now : ℕ) (hOnly : rules.emitOnlyOnStateChange = true)
    (hSt : b.lastEmittedState = some st)
    (hem : (maybeEmit rules b st now).2 = true) :
    (rules.emitStateRefreshMs : ℤ) ≤ (now : ℤ) - b.lastEmittedAt ∧
    (maybeEmit rules b st now).1
      = { lastEmittedState := some st, lastEmittedAt := now } := by
  by_cases hr : (rules.emitStateRefreshMs : ℤ) ≤ (now : ℤ) - b.lastEmittedAt
  · refine ⟨hr, ?_⟩
    simp [maybeEmit, hSt, hOnly, hr]
  · exfalso
    simp [maybeEmit, hSt, hOnly, hr] at hem

/-- Every instant emitted by a run over an unchanged state lies at least the
refresh interval after the bookkeeping's last emission stamp. -/
theorem emitTrace_ge (rules : Rules) (st : LearnerState)
    (hOnly : rules.emitOnlyOnStateChange = true) :
    ∀ (times : List ℕ) (b : EmitBook), b.lastEmittedState = some st →
      ∀ x ∈ emitTrace rules st b times,
        (rules.emitStateRefreshMs : ℤ) ≤ (x : ℤ) - b.lastEmittedAt := by
  intro times
  induction times with
  | nil => intro b _ x hx; simp [emitTrace] at hx
  | cons now rest ih =>
    intro b hSt x hx
    simp only [emitTrace] at hx
    rcases maybeEmit_cases rules b st now with hc | hc
    · rw [hc] at hx
      simp only [Bool.false_eq_true, if_false] at hx
      exact ih b hSt x hx
    · have hem : (maybeEmit rules b st now).2 = true := by rw [hc]
      have hstep := maybeEmit_emit_unchanged rules b st now hOnly hSt hem
      rw [hc] at hx
      simp only [if_true] at hx
      rcases List.mem_cons.mp hx with h | h
      · subst h; exact hstep.1
      · have h1 := ih { lastEmittedState := some st, lastEmittedAt := now } rfl x h
        have h2 := hstep.1
        simp only at h1
        omega

/-- The instants emitted by a run over an unchanged state are spaced by at
least the refresh interval. -/
theorem emitTrace_chain (rules : Rules) (st : LearnerState)
    (hOnly : rules.emitOnlyOnStateChange = true) :
    ∀ (times : List ℕ) (b : EmitBook), b.lastEmittedState = some st →
      List.Chain' (fun a c => a + rules.emitStateRefreshMs ≤ c)
        (emitTrace rules st b times) := by
  intro times
  induction times with
  | nil => intro b _; simp [emitTrace]
  | cons now rest ih =>
    intro b hSt
    simp only [emitTrace]
    rcases maybeEmit_cases rules b st now with hc | hc
    · rw [hc]
      simp only [Bool.false_eq_true, if_false]
      exact ih b hSt
    · rw [hc]
      simp only [if_true]
      rw [List.chain'_cons']
      constructor
      · intro y hy
        have hymem := List.mem_of_mem_head? hy
        have h1 := emitTrace_ge rules st hOnly rest
          { lastEmittedState := some st, lastEmittedAt := now } rfl y hymem
        have hem : (maybeEmit rules b st now).2 = true := by rw [hc]
        have h2 := (maybeEmit_emit_unchanged rules b st now hOnly hSt hem).1
        simp only at h1
        omega
      · exact ih { lastEmittedState := some st, lastEmittedAt := now } rfl

/-- Claim C7: with `emitOnlyOnStateChange = true`, over any sequence of
evaluations all yielding the last emitted state, an emission occurs only when
`now − lastEmittedAt ≥ emitStateRefreshMs` (and it updates both
`lastEmittedState` and `lastEmittedAt`), so consecutive emissions are spaced
at least `emitStateRefreshMs` apart — at most one emission per interval. -/
theorem emission_throttle (rules : Rules) (b : EmitBook) (st : LearnerState)
    (times : List ℕ)
    (hOnly : rules.emitOnlyOnStateChange = true)
    (hSt : b.lastEmittedState = some st) :
    (∀ now, (maybeEmit rules b st now).2 = true →
        (rules.emitStateRefreshMs : ℤ) ≤ (now : ℤ) - b.lastEmittedAt ∧
        (maybeEmit rules b st now).1.lastEmittedState = some st ∧
        (maybeEmit rules b st now).1.lastEmittedAt = now) ∧
    List.Chain' (fun a c => a + rules.emitStateRefreshMs ≤ c)
      (emitTrace rules st b times) := by
  constructor
  · intro now hem
    have h := maybeEmit_emit_unchanged rules b st now hOnly hSt hem
    exact ⟨h.1, by rw [h.2], by rw [h.2]⟩
  · exact emitTrace_chain rules st hOnly times b hSt

theorem emission_throttle_witness :
    (DEFAULTS.emitOnlyOnStateChange = true) ∧
    (({ lastEmittedState := some LearnerState.ok, lastEmittedAt := 0 }
        : EmitBook).lastEmittedState = some LearnerState.ok) ∧
    List.Chain' (fun a c => a + DEFAULTS.emitStateRefreshMs ≤ c)
      (emitTrace DEFAULTS LearnerState.ok
        { lastEmittedState := some LearnerState.ok, lastEmittedAt := 0 }
        [10000, 20000, 40000, 70000]) :=
  ⟨rfl, rfl,
    (emission_throttle DEFAULTS
      { lastEmittedState := some LearnerState.ok, lastEmittedAt := 0 }
      LearnerState.ok [10000, 20000, 40000, 70000] rfl rfl).2⟩

/-- Claim C1 counterexample: a throwing `onInsight` callback is NOT caught at
its call boundary — `emitInsight` wraps the call in no try/catch, so the
exception escapes the delivery sequence and the remaining deliveries of that
emission (webhook POST, UI render) never occur. -/
theorem callback_exception_escapes :
    runDeliveries throwingCallbackCfg examplePayload = ([DeliveryStep.callback], true) ∧
    DeliveryStep.webhook ∉ (runDeliveries throwingCallbackCfg examplePayload).1 ∧
    DeliveryStep.uiRender ∉ (runDeliveries throwingCallbackCfg examplePayload).1 := by
  refine ⟨rfl, by decide, by decide⟩

/-- Claim C1 amended: exceptions raised by integrator-supplied handlers are
NOT caught at their call boundaries (only webhook transport failures and the
best-effort page reads are caught): a throwing `onInsight` aborts the
emission — the webhook and UI deliveries are skipped — and the exception
escapes; a throwing `ui.render` escapes after the first two deliveries; a
throwing `ui.onAction` click handler escapes the click listener. -/
theorem handler_exceptions_propagate (c : DeliverCfg) (i : InsightPayload) :
    (∀ f, c.onInsight = some f → f i = Except.error () →
        runDeliveries c i = ([DeliveryStep.callback], true)) ∧
    (∀ ui, c.ui = some ui → emitInsight c i = Except.ok () →
        ui.render i = Except.error () →
        runDeliveries c i
          = ([DeliveryStep.callback, DeliveryStep.webhook, DeliveryStep.uiRender], true)) ∧
    (∀ ui a g, ui.onAction = some g → g a i = Except.error () →
        uiClick ui a i = Except.error ()) := by
  refine ⟨?_, ?_, ?_⟩
  · intro f hf hfi
    simp [runDeliveries, emitInsight, hf, hfi]
  · intro ui hui hok hre
    simp [runDeliveries, hok, maybeRenderUI, hui, hre]
  · intro ui a g hg hgi
    simp [uiClick, hg, hgi]

theorem handler_exceptions_propagate_witness :
    (throwingCallbackCfg.onInsight
        = some (fun _ => (Except.error () : Except Unit Unit))) ∧
    ((fun (_ : InsightPayload) => (Except.error () : Except Unit Unit)) examplePayload
        = Except.error ()) ∧
    runDeliveries throwingCallbackCfg examplePayload = ([DeliveryStep.callback], true) :=
  ⟨rfl, rfl,
    (handler_exceptions_propagate throwingCallbackCfg examplePayload).1
      (fun _ => Except.error ()) rfl rfl⟩

/-- Claim C8 counterexample: an emitted payload with state `ok` (an
evaluation with fewer than `minRewinds` rewinds — here a lone pause event)
carries none of `dominant_segment`, `max_segment_rewinds`,
`pause_near_rewind`: the `ok` branch passes no `extra` object, so the three
keys are absent from the payload. -/
theorem ok_payload_lacks_signals :
    ((trackEvent DEFAULTS JsDur.undef 0
        { userId := none, topic := none, lessonId := none, sessionId := none }
        EventType.pause (EvMeta.pauseM 0) 10000 initialState).2.map
      (fun pe => (pe.1.state, pe.1.extra, pe.2)))
      = some (LearnerState.ok, none, true) := by
  decide

/-- Claim C8 amended: the derived-signal fields `dominant_segment`,
`max_segment_rewinds` and `pause_near_rewind` are present on an emitted or
built payload exactly when the evaluation had `rewindCount ≥ minRewinds`
(states `struggling`/`confused`); payloads with state `ok` omit them. -/
theorem signals_presence (rules : Rules) (dur : JsDur) (ct : ℚ) (meta : MetaCfg)
    (now : ℕ) (s : EngineState)
    (hcool : ¬ ((now : ℤ) - s.lastInsightAt < rules.cooldownMs)) :
    ∃ pe, (evaluateState rules dur ct meta now s).2 = some pe ∧
      (pe.1.extra.isSome = true ↔ rules.minRewinds ≤ rewindCount s.events) := by
  refine ⟨_, evaluateState_run rules dur ct meta now s hcool, ?_⟩
  show (evalCore rules s.events).extra.isSome = true ↔ _
  by_cases h : rewindCount s.events < rules.minRewinds
  · rw [evalCore_of_lt rules s.events h]
    exact iff_of_false (by simp) (not_le.mpr h)
  · have hge := not_lt.mp h
    have hnl : ¬ ((s.events.filter (fun e => e.type = EventType.rewind)).length
        < rules.minRewinds) := not_lt.mpr hge
    refine iff_of_true ?_ hge
    simp only [evalCore, if_neg hnl]
    rfl

theorem signals_presence_witness :
    (¬ ((10000 : ℤ) - (scenarioA.lastInsightAt : ℤ) < DEFAULTS.cooldownMs)) ∧
    ∃ pe, (evaluateState DEFAULTS JsDur.undef 0
        { userId := none, topic := none, lessonId := none, sessionId := none }
        10000 scenarioA).2 = some pe ∧
      (pe.1.extra.isSome = true ↔ DEFAULTS.minRewinds ≤ rewindCount scenarioA.events) :=
  ⟨by decide,
    signals_presence DEFAULTS JsDur.undef 0
      { userId := none, topic := none, lessonId := none, sessionId := none }
      10000 scenarioA (by decide)⟩

/-! ### Histogram / stable-sort lemmas (for the dominant-segment analysis) -/

theorem sortAsc_cons (k : ℕ) (l : List ℕ) : sortAsc (k :: l) = insertAsc k (sortAsc l) := rfl

theorem sortByCountDesc_cons (x : ℕ × ℕ) (l : List (ℕ × ℕ)) :
    sortByCountDesc (x :: l) = insertByCountDesc x (sortByCountDesc l) := rfl

theorem insertByCountDesc_length (x : ℕ × ℕ) (l : List (ℕ × ℕ)) :
    (insertByCountDesc x l).length = l.length + 1 := by
  induction l with
  | nil => rfl
  | cons y ys ih =>
    simp only [insertByCountDesc]
    split
    · rfl
    · simp [ih]

theorem sortByCountDesc_length (l : List (ℕ × ℕ)) :
    (sortByCountDesc l).length = l.length := by
  induction l with
  | nil => rfl
  | cons x xs ih => rw [sortByCountDesc_cons, insertByCountDesc_length, ih, List.length_cons]

theorem insertAsc_length (k : ℕ) (l : List ℕ) : (insertAsc k l).length = l.length + 1 := by
  induction l with
  | nil => rfl
  | cons b bs ih =>
    simp only [insertAsc]
    split
    · rfl
    · simp [ih]

theorem sortAsc_length (l : List ℕ) : (sortAsc l).length = l.length := by
  induction l with
  | nil => rfl
  | cons b bs ih => rw [sortAsc_cons, insertAsc_length, ih, List.length_cons]

theorem mem_insertAsc {a k : ℕ} {l : List ℕ} :
    a ∈ insertAsc k l ↔ a = k ∨ a ∈ l := by
  induction l with
  | nil => simp [insertAsc]
  | cons b bs ih =>
    simp only [insertAsc]
    split
    · simp [List.mem_cons]
    · simp [List.mem_cons, ih]
      tauto

theorem mem_sortAsc {a : ℕ} {l : List ℕ} : a ∈ sortAsc l ↔ a ∈ l := by
  induction l with
  | nil => simp [sortAsc]
  | cons b bs ih =>
    rw [sortAsc_cons]
    simp [mem_insertAsc, ih]

theorem sorted_insertAsc {l : List ℕ} (k : ℕ) (h : List.Sorted (· ≤ ·) l) :
    List.Sorted (· ≤ ·) (insertAsc k l) := by
  induction l with
  | nil => simp [insertAsc]
  | cons b bs ih =>
    simp only [insertAsc]
    split
    next hkb =>
      rw [List.sorted_cons]
      refine ⟨?_, h⟩
      intro y hy
      rcases List.mem_cons.mp hy with rfl | hy
      · exact le_of_lt hkb
      · exact le_trans (le_of_lt hkb) ((List.sorted_cons.mp h).1 y hy)
    next hkb =>
      rcases List.sorted_cons.mp h with ⟨hb, hbs⟩
      rw [List.sorted_cons]
      refine ⟨?_, ih hbs⟩
      intro y hy
      rcases mem_insertAsc.mp hy with rfl | hy
      · exact le_of_not_lt hkb
      · exact hb y hy

theorem sorted_sortAsc (l : List ℕ) : List.Sorted (· ≤ ·) (sortAsc l) := by
  induction l with
  | nil => simp [sortAsc]
  | cons b bs ih =>
    rw [sortAsc_cons]
    exact sorted_insertAsc b ih

theorem maxSegmentRewinds_cons (x : ℕ × ℕ) (l : List (ℕ × ℕ)) :
    maxSegmentRewinds (x :: l) = max x.2 (maxSegmentRewinds l) := rfl

theorem count_le_maxSegmentRewinds {p : ℕ × ℕ} {l : List (ℕ × ℕ)} (h : p ∈ l) :
    p.2 ≤ maxSegmentRewinds l := by
  induction l with
  | nil => cases h
  | cons y ys ih =>
    rw [maxSegmentRewinds_cons]
    rcases List.mem_cons.mp h with rfl | h
    · exact le_max_left _ _
    · exact le_trans (ih h) (le_max_right _ _)

/-- The head of the stable descending-by-count sort is the first entry, in
original order, holding the maximal count. -/
theorem sortByCountDesc_head (l : List (ℕ × ℕ)) :
    (sortByCountDesc l).head? = l.find? (fun p => p.2 = maxSegmentRewinds l) := by
  induction l with
  | nil => rfl
  | cons x xs ih =>
    rw [sortByCountDesc_cons]
    rcases hxs : sortByCountDesc xs with _ | ⟨y, ys⟩
    · have hxe : xs = [] := by
        have hl := sortByCountDesc_length xs
        rw [hxs] at hl
        exact List.length_eq_zero.mp hl.symm
      subst hxe
      simp only [insertByCountDesc, List.head?]
      rw [show maxSegmentRewinds [x] = x.2 from by
        simp [maxSegmentRewinds]]
      rw [List.find?_cons_of_pos _ (by simp)]
    · rw [hxs] at ih
      have hfind : xs.find? (fun p => p.2 = maxSegmentRewinds xs) = some y := ih.symm
      have hy2 : y.2 = maxSegmentRewinds xs := by
        simpa using List.find?_some hfind
      by_cases hxy : y.2 ≤ x.2
      · simp only [insertByCountDesc]
        rw [if_pos hxy]
        have hmax : maxSegmentRewinds (x :: xs) = x.2 := by
          rw [maxSegmentRewinds_cons, max_eq_left (hy2 ▸ hxy)]
        rw [hmax, List.find?_cons_of_pos _ (by simp)]
        rfl
      · have hlt : x.2 < y.2 := lt_of_not_le hxy
        simp only [insertByCountDesc]
        rw [if_neg hxy]
        have hmax : maxSegmentRewinds (x :: xs) = maxSegmentRewinds xs := by
          rw [maxSegmentRewinds_cons, max_eq_right (le_of_lt (hy2 ▸ hlt))]
        rw [hmax, List.find?_cons_of_neg _ (by simp; omega)]
        rw [hfind]
        rfl

/-- In a `≤`-sorted key list, `find?` returns a least key satisfying the
predicate. -/
theorem find?_sorted_least {p : ℕ → Bool} :
    ∀ {ks : List ℕ}, List.Sorted (· ≤ ·) ks → ∀ {d : ℕ}, ks.find? p = some d →
      ∀ k ∈ ks, p k = true → d ≤ k := by
  intro ks
  induction ks with
  | nil => intro _ d h; cases h
  | cons a as ih =>
    intro hs d hf k hk hpk
    rcases List.sorted_cons.mp hs with ⟨ha, has⟩
    by_cases hpa : p a = true
    · rw [List.find?_cons_of_pos _ hpa] at hf
      injection hf with hf
      subst hf
      rcases List.mem_cons.mp hk with rfl | hk
      · exact le_rfl
      · exact ha k hk
    · rw [List.find?_cons_of_neg _ hpa] at hf
      rcases List.mem_cons.mp hk with rfl | hk
      · exact absurd hpk hpa
      · exact ih has hf k hk hpk

/-- The key reported by the code's histogram pipeline — ascending-key entries
(JS integer-key enumeration) stably sorted by descending count, head taken —
is the least key achieving the maximal count of the multiset. -/
theorem histogram_head_least (segs : List ℕ) (hne : segs ≠ []) :
    ∃ d, ((sortByCountDesc (jsEntries segs)).head?).map (fun p => p.1) = some d ∧
      d ∈ segs ∧
      (∀ k ∈ segs, countKey k segs ≤ countKey d segs) ∧
      (∀ k ∈ segs, countKey k segs = countKey d segs → d ≤ k) := by
  have hkeys : sortAsc segs.dedup ≠ [] := by
    intro h
    have hl := sortAsc_length segs.dedup
    rw [h] at hl
    exact hne ((List.dedup_eq_nil segs).mp (List.length_eq_zero.mp hl.symm))
  have hent : jsEntries segs ≠ [] := by
    intro h
    exact hkeys (List.map_eq_nil_iff.mp h)
  -- the head exists
  have hslen : (sortByCountDesc (jsEntries segs)).length = (jsEntries segs).length :=
    sortByCountDesc_length _
  have hsne : sortByCountDesc (jsEntries segs) ≠ [] := by
    intro h
    rw [h] at hslen
    exact hent (List.length_eq_zero.mp hslen.symm)
  rcases List.exists_mem_of_ne_nil _ hsne with ⟨p0, _⟩
  rcases hh : (sortByCountDesc (jsEntries segs)).head? with _ | ⟨p⟩
  · exact absurd (List.head?_eq_none_iff.mp hh) hsne
  -- characterize the head via find?
  have hfind : (jsEntries segs).find? (fun q => q.2 = maxSegmentRewinds (jsEntries segs))
      = some p := by
    rw [← sortByCountDesc_head, hh]
  -- push find? through the map that builds the entries
  have hmapped := List.find?_map (fun k => (k, countKey k segs)) (sortAsc segs.dedup)
    (p := fun q => q.2 = maxSegmentRewinds (jsEntries segs))
  rw [show ((sortAsc segs.dedup).map fun k => (k, countKey k segs)) = jsEntries segs from rfl,
    hfind] at hmapped
  rcases hkf : (sortAsc segs.dedup).find?
      ((fun q => decide (q.2 = maxSegmentRewinds (jsEntries segs))) ∘
        fun k => (k, countKey k segs)) with _ | ⟨d⟩
  · rw [hkf] at hmapped
    cases hmapped
  · rw [hkf] at hmapped
    have hpd : p = (d, countKey d segs) := by
      injection hmapped
    have hdcount : countKey d segs = maxSegmentRewinds (jsEntries segs) := by
      have := List.find?_some hkf
      simpa using this
    have hdmem : d ∈ segs := by
      have := List.mem_of_find?_eq_some hkf
      exact (List.mem_dedup.mp (mem_sortAsc.mp this))
    refine ⟨d, ?_, hdmem, ?_, ?_⟩
    · rw [hpd]
      rfl
    · intro k hk
      have hkent : (k, countKey k segs) ∈ jsEntries segs := by
        exact List.mem_map_of_mem _ (mem_sortAsc.mpr (List.mem_dedup.mpr hk))
      have := count_le_maxSegmentRewinds hkent
      simp only at this
      rw [hdcount]
      exact this
    · intro k hk hck
      refine find?_sorted_least (sorted_sortAsc segs.dedup) hkf k
        (mem_sortAsc.mpr (List.mem_dedup.mpr hk)) ?_
      simp [Function.comp, hck, hdcount]

/-- Claim C10 counterexample: in a window whose rewinds fall in segments
`[5, 2, 2, 5]` — first rewind in segment 5, segments 5 and 2 tied at two
rewinds each — the code reports `dominant_segment = "2"`, NOT the tied
segment whose first rewind occurs earliest in the buffer (segment 5): a JS
object enumerates integer-like keys in ascending numeric order, not in
first-occurrence (insertion) order, and the stable sort keeps that order
within ties. -/
theorem dominant_segment_not_first_occurrence :
    ((evalCore DEFAULTS tiedWindow).extra.map (fun ex => ex.dominant_segment))
      = some (some 2) ∧
    segsOf tiedWindow = [5, 2, 2, 5] ∧
    countKey 5 (segsOf tiedWindow) = countKey 2 (segsOf tiedWindow) ∧
    (segsOf tiedWindow).head? = some 5 ∧
    ((2 : ℕ) ≠ 5) := by
  refine ⟨by decide, by decide, by decide, by decide, by decide⟩

/-- Claim C10 amended: for every evaluation with `rewindCount ≥ minRewinds`
(hence at least one rewind), the reported `dominant_segment` is,
deterministically, the string form of the LOWEST-numbered segment among
those achieving the maximal rewind count: JS objects enumerate integer-like
keys in ascending numeric order and the descending sort by count is stable,
so within a tie the smallest segment id comes first.  The same window
contents always yield the same `dominant_segment`. -/
theorem dominant_segment_least_tied (rules : Rules) (events : List ClassifiedEvent)
    (hmin : rules.minRewinds ≤ rewindCount events)
    (hpos : 1 ≤ rewindCount events) :
    ∃ ex d, (evalCore rules events).extra = some ex ∧
      ex.dominant_segment = some d ∧
      d ∈ segsOf events ∧
      (∀ k ∈ segsOf events,
        countKey k (segsOf events) ≤ countKey d (segsOf events)) ∧
      (∀ k ∈ segsOf events,
        countKey k (segsOf events) = countKey d (segsOf events) → d ≤ k) := by
  have hne : segsOf events ≠ [] := by
    intro h
    have hlen : (segsOf events).length = 0 := by rw [h]; rfl
    have hlf : (events.filter (fun e => e.type = EventType.rewind)).length = 0 := by
      simpa [segsOf] using hlen
    rw [rewindCount] at hpos
    omega
  obtain ⟨d, hd, hmem, hmax, hleast⟩ := histogram_head_least (segsOf events) hne
  have hnl : ¬ ((events.filter (fun e => e.type = EventType.rewind)).length
      < rules.minRewinds) := not_lt.mpr hmin
  refine ⟨{ dominant_segment :=
              ((sortByCountDesc (jsEntries (segsOf events))).head?).map (fun p => p.1)
            max_segment_rewinds := maxSegmentRewinds (jsEntries (segsOf events))
            pause_near_rewind := didPauseNear events
              (((events.filter (fun e => e.type = EventType.rewind)).getLast?).map
                (fun e => e.timestamp))
              rules.pauseNearRewindSeconds },
      d, ?_, hd, hmem, hmax, hleast⟩
  simp only [evalCore, if_neg hnl, segsOf]

theorem dominant_segment_least_tied_witness :
    (DEFAULTS.minRewinds ≤ rewindCount tiedWindow) ∧ (1 ≤ rewindCount tiedWindow) ∧
    ∃ ex d, (evalCore DEFAULTS tiedWindow).extra = some ex ∧
      ex.dominant_segment = some d ∧
      d ∈ segsOf tiedWindow ∧
      (∀ k ∈ segsOf tiedWindow,
        countKey k (segsOf tiedWindow) ≤ countKey d (segsOf tiedWindow)) ∧
      (∀ k ∈ segsOf tiedWindow,
        countKey k (segsOf tiedWindow) = countKey d (segsOf tiedWindow) → d ≤ k) :=
  ⟨by decide, by decide,
    dominant_segment_least_tied DEFAULTS tiedWindow (by decide) (by decide)⟩

end Sciro
